import Mathlib

/-!
Shallow embedding of the 2D affine-transform engine and the SVG-style
transform-list parser of the repository (Vec2D, Matrix2D, ReadPoints,
PointsCheckN, Matrix2D.SetString and the pixel-grid rectangle helpers),
together with theorems settling the specification claims.

Modelling conventions:
* `float32` values are modelled as real numbers (`ℝ`); the numeric values
  produced by the token scanner are modelled as exact rationals (`ℚ`),
  cast into `ℝ` when they enter a matrix.  No floating-point rounding is
  modelled.
* Go strings are modelled as `List Char`; the claim inputs are ASCII, for
  which rune iteration with byte indices coincides with character lists.
* `unicode.IsNumber` is modelled as ASCII-digit test (all claim inputs and
  the SVG number grammar are ASCII).
* Go's `image.Point` / `image.Rectangle` / `image.Rect` / `Rectangle.In`
  (standard library, called by the code) are modelled as `GoPoint`,
  `GoRect`, `imageRect`, `GoRect.In` with their documented semantics.
* A Go runtime panic (out-of-range slice index) is an explicit
  `SSResult.panic` outcome; a returned `error` is `Option String`
  (`none` = nil).
-/

open Real

/-- Vec2D: 2D vector with X, Y components (float32 in the source, `ℝ` here). -/
structure Vec2D where
  X : ℝ
  Y : ℝ

/-- Model of Go `image.Point` (integer grid point). -/
structure GoPoint where
  X : ℤ
  Y : ℤ
  deriving Repr, DecidableEq

/-- Model of Go `image.Rectangle`: Min and Max corners. -/
structure GoRect where
  Min : GoPoint
  Max : GoPoint
  deriving Repr, DecidableEq

/-- Model of Go `image.Rect(x0,y0,x1,y1)`: swaps coordinates so that
Min ≤ Max componentwise. -/
def imageRect (x0 y0 x1 y1 : ℤ) : GoRect :=
  let (x0, x1) := if x1 < x0 then (x1, x0) else (x0, x1)
  let (y0, y1) := if y1 < y0 then (y1, y0) else (y0, y1)
  ⟨⟨x0, y0⟩, ⟨x1, y1⟩⟩

/-- Model of Go `image.Rectangle.Empty`. -/
def GoRect.Empty (r : GoRect) : Bool :=
  r.Max.X ≤ r.Min.X ∨ r.Max.Y ≤ r.Min.Y

/-- Model of Go `image.Rectangle.In`: `r.In s` reports whether every point
in `r` is in `s` (an empty rectangle is in every rectangle). -/
def GoRect.In (r s : GoRect) : Bool :=
  if r.Empty then true
  else
    s.Min.X ≤ r.Min.X ∧ r.Max.X ≤ s.Max.X ∧
    s.Min.Y ≤ r.Min.Y ∧ r.Max.Y ≤ s.Max.Y

/-- `Vec2D.ToPointCeil`: componentwise ceiling (Go `int(math32.Ceil(·))`). -/
noncomputable def Vec2D.ToPointCeil (a : Vec2D) : GoPoint :=
  ⟨⌈a.X⌉, ⌈a.Y⌉⟩

/-- `Vec2D.ToPointFloor`: componentwise floor (Go `int(math32.Floor(·))`). -/
noncomputable def Vec2D.ToPointFloor (a : Vec2D) : GoPoint :=
  ⟨⌊a.X⌋, ⌊a.Y⌋⟩

/-- `RectFromPosSizeMax`: rectangle from max dims of pos, size
(floor on pos, ceil on size). -/
noncomputable def RectFromPosSizeMax (pos sz : Vec2D) : GoRect :=
  let tp := pos.ToPointFloor
  let ts := sz.ToPointCeil
  imageRect tp.X tp.Y (tp.X + ts.X) (tp.Y + ts.Y)

/-- `RectFromPosSizeMin`: rectangle from min dims of pos, size
(ceil on pos, floor on size). -/
noncomputable def RectFromPosSizeMin (pos sz : Vec2D) : GoRect :=
  let tp := pos.ToPointCeil
  let ts := sz.ToPointFloor
  imageRect tp.X tp.Y (tp.X + ts.X) (tp.Y + ts.Y)

/-- Matrix2D: 2×3 affine matrix with fields XX, YX, XY, YY, X0, Y0
(float32 in the source, `ℝ` here). -/
@[ext] structure Matrix2D where
  XX : ℝ
  YX : ℝ
  XY : ℝ
  YY : ℝ
  X0 : ℝ
  Y0 : ℝ

def Identity2D : Matrix2D := ⟨1, 0, 0, 1, 0, 0⟩

def Translate2D (x y : ℝ) : Matrix2D := ⟨1, 0, 0, 1, x, y⟩

def Scale2D (x y : ℝ) : Matrix2D := ⟨x, 0, 0, y, 0, 0⟩

noncomputable def Rotate2D (angle : ℝ) : Matrix2D :=
  ⟨Real.cos angle, Real.sin angle, -Real.sin angle, Real.cos angle, 0, 0⟩

def Shear2D (x y : ℝ) : Matrix2D := ⟨1, y, x, 1, 0, 0⟩

noncomputable def Skew2D (x y : ℝ) : Matrix2D := ⟨1, Real.tan y, Real.tan x, 1, 0, 0⟩

def Matrix2D.Multiply (a b : Matrix2D) : Matrix2D :=
  ⟨a.XX * b.XX + a.YX * b.XY,
   a.XX * b.YX + a.YX * b.YY,
   a.XY * b.XX + a.YY * b.XY,
   a.XY * b.YX + a.YY * b.YY,
   a.X0 * b.XX + a.Y0 * b.XY + b.X0,
   a.X0 * b.YX + a.Y0 * b.YY + b.Y0⟩

/-- `TransformVector`: apply the linear part only (no translation). -/
def Matrix2D.TransformVector (a : Matrix2D) (x y : ℝ) : ℝ × ℝ :=
  (a.XX * x + a.XY * y, a.YX * x + a.YY * y)

/-- `TransformPoint`: apply the full affine map. -/
def Matrix2D.TransformPoint (a : Matrix2D) (x y : ℝ) : ℝ × ℝ :=
  (a.XX * x + a.XY * y + a.X0, a.YX * x + a.YY * y + a.Y0)

def Matrix2D.Translate (a : Matrix2D) (x y : ℝ) : Matrix2D :=
  (Translate2D x y).Multiply a

def Matrix2D.Scale (a : Matrix2D) (x y : ℝ) : Matrix2D :=
  (Scale2D x y).Multiply a

noncomputable def Matrix2D.Rotate (a : Matrix2D) (angle : ℝ) : Matrix2D :=
  (Rotate2D angle).Multiply a

def Matrix2D.Shear (a : Matrix2D) (x y : ℝ) : Matrix2D :=
  (Shear2D x y).Multiply a

noncomputable def Matrix2D.Skew (a : Matrix2D) (x y : ℝ) : Matrix2D :=
  (Skew2D x y).Multiply a

/-- `math.Atan2 y x` modelled as the argument of the complex number
`x + y·i` (the standard mathematical definition of atan2, with range
`(-π, π]` and `atan2 0 0 = 0`). -/
noncomputable def atan2 (y x : ℝ) : ℝ := Complex.arg ⟨x, y⟩

/-- `ExtractRot`: rotation component of a matrix. -/
noncomputable def Matrix2D.ExtractRot (a : Matrix2D) : ℝ :=
  atan2 (-a.XY) a.XX

/-- `ExtractScale`: X and Y scale factors after undoing the extracted
rotation. -/
noncomputable def Matrix2D.ExtractScale (a : Matrix2D) : ℝ × ℝ :=
  let rot := a.ExtractRot
  let tx := a.Rotate (-rot)
  ((tx.TransformVector 1 0).1, (tx.TransformVector 0 1).2)

/-- C1: transforming a point by `a.Multiply b` equals transforming it by
`a`'s map and then by `b`'s map. -/
theorem multiply_transformPoint_comp (a b : Matrix2D) (x y : ℝ) :
    (a.Multiply b).TransformPoint x y =
      b.TransformPoint (a.TransformPoint x y).1 (a.TransformPoint x y).2 := by
  simp only [Matrix2D.Multiply, Matrix2D.TransformPoint, Prod.mk.injEq]
  constructor <;> ring

/-! ### String helpers (models of Go `strings` operations over `List Char`) -/

/-- Go `strings.IndexByte`: index of the first occurrence of `b`, as an
`Option` (Go returns -1 for "not found"). -/
def indexOfChar : List Char → Char → Option Nat
  | [], _ => none
  | c :: t, b => if c = b then some 0 else (indexOfChar t b).map (· + 1)

/-- Go `strings.Contains(s, "(")`-style single-character containment. -/
def containsChar : List Char → Char → Bool
  | [], _ => false
  | c :: t, b => c = b || containsChar t b

/-- Go `strings.TrimSpace`: drop leading and trailing whitespace. -/
def trimSpaceL (s : List Char) : List Char :=
  ((s.dropWhile Char.isWhitespace).reverse.dropWhile Char.isWhitespace).reverse

/-- Go `strings.ToLower` (ASCII-relevant part). -/
def toLowerL (s : List Char) : List Char := s.map Char.toLower

/-- Go slice `s[a:b]`. -/
def sliceL (s : List Char) (a b : Nat) : List Char := (s.drop a).take (b - a)

/-! ### Numeric token scanner (`ParseFloat32`, `ReadPoints`) -/

/-- `unicode.IsNumber` restricted to ASCII digits (every claim input and
the SVG number grammar are ASCII). -/
def isNumberChar (c : Char) : Bool := c.isDigit

/-- Numeric value of a digit string (most significant first). -/
def digitsVal (cs : List Char) : ℕ :=
  cs.foldl (fun n c => 10 * n + (c.toNat - '0'.toNat)) 0

/-- Model of `strconv.ParseFloat` (as used by `ParseFloat32`) on its
decimal grammar: optional sign, digits with at most one '.', optional
exponent `e`/`E` with optional sign.  Returns the exact rational value;
`none` models a parse error.  (Tokens produced by `ReadPoints` only ever
contain digits, '.', 'e' and '-', so the non-decimal forms `strconv`
accepts — inf, nan, hex — are unreachable here.) -/
def parseFloatQ (cs : List Char) : Option ℚ :=
  let signAndRest : Bool × List Char :=
    match cs with
    | '-' :: t => (true, t)
    | '+' :: t => (false, t)
    | _ => (false, cs)
  let neg := signAndRest.1
  let cs1 := signAndRest.2
  let ip := cs1.takeWhile isNumberChar
  let cs2 := cs1.dropWhile isNumberChar
  let fpAndRest : List Char × List Char :=
    match cs2 with
    | '.' :: t => (t.takeWhile isNumberChar, t.dropWhile isNumberChar)
    | _ => ([], cs2)
  let fp := fpAndRest.1
  let cs3 := fpAndRest.2
  if ip.isEmpty && fp.isEmpty then none
  else
    -- mantissa of `ip.fp` as an integer pair: the exact value is
    -- digitsVal (ip ++ fp) / 10 ^ fp.length; the exponent is folded into
    -- numerator/denominator so the value is one `Rat.divInt` of integer
    -- computations (exact, and reducible on concrete inputs)
    let mantNum : ℤ := digitsVal (ip ++ fp)
    let value (eneg : Bool) (e : ℕ) : ℚ :=
      Rat.divInt
        ((if neg then -mantNum else mantNum) * (if eneg then 1 else (10 : ℤ) ^ e))
        ((10 : ℤ) ^ fp.length * (if eneg then (10 : ℤ) ^ e else 1))
    match cs3 with
    | [] => some (value false 0)
    | e :: t =>
      if e = 'e' ∨ e = 'E' then
        let esignAndRest : Bool × List Char :=
          match t with
          | '-' :: t2 => (true, t2)
          | '+' :: t2 => (false, t2)
          | _ => (false, t)
        let eneg := esignAndRest.1
        let t1 := esignAndRest.2
        let ed := t1.takeWhile isNumberChar
        let t3 := t1.dropWhile isNumberChar
        if ed.isEmpty || !t3.isEmpty then none
        else some (value eneg (digitsVal ed))
      else none

/-- The loop of `ReadPoints`, iterating over the remaining runes with
their index `i`; `lastIdx = none` models Go's `lastIdx == -1`, `lr` is
the previous rune, `pts` the accumulated values and `orig` the full
string being sliced.  `none` models `ReadPoints` returning nil after a
`ParseFloat32` error. -/
def readPointsGo (orig : List Char) :
    List Char → Nat → Option Nat → Char → List ℚ → Option (List ℚ)
  | [], _, lastIdx, _, pts =>
    -- after the loop: flush a token touching the end of the string
    match lastIdx with
    | some l =>
      if l ≠ orig.length then
        match parseFloatQ (sliceL orig l orig.length) with
        | none => none
        | some p => some (pts ++ [p])
      else some pts
    | none => some pts
  | r :: rest, i, lastIdx, lr, pts =>
    if ¬ (isNumberChar r = true) ∧ r ≠ '.' ∧ ¬ (r = '-' ∧ lr = 'e') ∧ r ≠ 'e' then
      let flushed : Option (List ℚ) :=
        match lastIdx with
        | some l =>
          match parseFloatQ (sliceL orig l i) with
          | none => none
          | some p => some (pts ++ [p])
        | none => some pts
      match flushed with
      | none => none
      | some pts1 =>
        readPointsGo orig rest (i + 1) (if r = '-' then some i else none) r pts1
    else
      readPointsGo orig rest (i + 1)
        (match lastIdx with | none => some i | some l => some l) r pts

/-- `ReadPoints`: scan a set of floating point values from an SVG format
number string; Go returns a nil slice on a parse error, modelled as `[]`
(the program only ever consumes the result through `len` and indexing). -/
def ReadPoints (s : List Char) : List ℚ :=
  (readPointsGo s s 0 none ' ' []).getD []

example : ReadPoints "1,2,-3".toList = [1, 2, -3] := by decide
example : ReadPoints "1-2".toList = [1, -2] := by decide
example : ReadPoints "1e-5 2e3".toList = [Rat.divInt 1 100000, 2000] := by decide
example : ReadPoints "1e-5 2E3".toList = [Rat.divInt 1 100000, 2, 3] := by decide
example : ReadPoints "abc".toList = [] := by decide
example : ReadPoints "90".toList = [90] := by decide
example : ReadPoints ")".toList = [] := by decide

/-! ### Transform-list parser (`PointsCheckN`, `Matrix2D.SetString`) -/

/-- `PointsCheckN`: emit an error if the number of points read differs
from `n` (the error carries the actual and expected counts). -/
def PointsCheckN (pts : List ℚ) (n : Nat) (errm : String) : Option String :=
  if pts.length ≠ n then
    some (errm ++ " incorrect number of points: " ++ toString pts.length ++
      " != " ++ toString n ++ "\n")
  else none

/-- The `errmsg` local of `SetString`. -/
def setStringErrmsg : String := "gi.Matrix2D SetString"

/-- Outcome of one command of the `SetString` loop body: early return with
the current receiver and error, runtime panic, or continue with the
updated receiver. -/
inductive StepOut where
  | ret (m : Matrix2D) (err : Option String)
  | pan
  | cont (m : Matrix2D)

/-- Result of `SetString`: a runtime panic, or normal termination with the
final receiver value and the returned error (`none` = nil). -/
inductive SSResult where
  | panic
  | done (m : Matrix2D) (err : Option String)

/-- The closing-paren scan of the `SetString` loop: from the text after
`(`, compute the argument substring `vals` and the remaining input `nxt`
(empty when no `)` follows at a positive index; Go's `eidx > 0` test). -/
def splitValsNext (vals0 : List Char) : List Char × List Char :=
  match indexOfChar vals0 ')' with
  | some eidx =>
    if 0 < eidx then
      let n0 := trimSpaceL (vals0.drop (eidx + 1))
      let n1 := if n0.head? = some ';' then trimSpaceL (n0.drop 1) else n0
      (vals0.take eidx, n1)
    else (vals0, [])
  | none => (vals0, [])

theorem dropWhile_len_le (p : Char → Bool) (l : List Char) :
    (l.dropWhile p).length ≤ l.length := by
  induction l with
  | nil => simp [List.dropWhile]
  | cons c t ih =>
    by_cases h : p c = true
    · simp only [List.dropWhile, h, List.length_cons]
      omega
    · simp [List.dropWhile, h]

theorem trimSpaceL_len_le (s : List Char) :
    (trimSpaceL s).length ≤ s.length := by
  unfold trimSpaceL
  calc ((s.dropWhile Char.isWhitespace).reverse.dropWhile
          Char.isWhitespace).reverse.length
      ≤ (s.dropWhile Char.isWhitespace).reverse.length := by
        rw [List.length_reverse]
        exact dropWhile_len_le _ _
    _ ≤ s.length := by
        rw [List.length_reverse]
        exact dropWhile_len_le _ _

theorem splitValsNext_snd_len_le (vals0 : List Char) :
    (splitValsNext vals0).2.length ≤ vals0.length := by
  have hdl : ∀ (l : List Char) (k : Nat), (l.drop k).length ≤ l.length := by
    intro l k
    simp [List.length_drop]
  unfold splitValsNext
  cases indexOfChar vals0 ')' with
  | none => simp
  | some eidx =>
    by_cases he : 0 < eidx
    · simp only [he, if_true]
      by_cases hh : (trimSpaceL (vals0.drop (eidx + 1))).head? = some ';'
      · simp only [hh, if_true]
        calc (trimSpaceL ((trimSpaceL (vals0.drop (eidx + 1))).drop 1)).length
            ≤ ((trimSpaceL (vals0.drop (eidx + 1))).drop 1).length :=
              trimSpaceL_len_le _
          _ ≤ (trimSpaceL (vals0.drop (eidx + 1))).length := hdl _ _
          _ ≤ (vals0.drop (eidx + 1)).length := trimSpaceL_len_le _
          _ ≤ vals0.length := hdl _ _
      · simp only [hh, if_false]
        calc (trimSpaceL (vals0.drop (eidx + 1))).length
            ≤ (vals0.drop (eidx + 1)).length := trimSpaceL_len_le _
          _ ≤ vals0.length := hdl _ _
    · simp [he]

theorem indexOfChar_some_lt {s : List Char} {b : Char} {i : Nat}
    (h : indexOfChar s b = some i) : i < s.length := by
  induction s generalizing i with
  | nil => simp [indexOfChar] at h
  | cons c t ih =>
    simp only [indexOfChar] at h
    by_cases hc : c = b
    · rw [if_pos hc] at h
      obtain rfl : (0 : Nat) = i := Option.some.inj h
      simp
    · rw [if_neg hc, Option.map_eq_some'] at h
      obtain ⟨j, hj, rfl⟩ := h
      have := ih hj
      simp only [List.length_cons]
      omega

/-- The loop of `SetString`: repeatedly isolate `cmd(vals)`, scan the
values, dispatch on the command name and either return early (Go
`return err`), panic, or compose onto the receiver and continue with the
rest of the string.  The `matrix`/`translate`/`skew`/single-axis branches
model "PointsCheckN then index" as a list-shape match (the match succeeds
exactly when the count check passes). -/
noncomputable def setStringLoop (str : List Char) (a : Matrix2D) : SSResult :=
  let errmsg := setStringErrmsg
  match hpidx : indexOfChar str '(' with
  | none =>
    .done a (some ("gi.Matrix2D SetString: no params for xform: " ++
      String.mk str ++ "\n"))
  | some pidx =>
    let cmd := str.take pidx
    let valsNxt := splitValsNext (str.drop (pidx + 1))
    let vals := valsNxt.1
    let nxt := valsNxt.2
    let pts := ReadPoints vals
    let out : StepOut :=
      if cmd = "matrix".toList then
        match pts with
        | [p0, p1, p2, p3, p4, p5] =>
          .cont ⟨(p0 : ℝ), (p1 : ℝ), (p2 : ℝ), (p3 : ℝ), (p4 : ℝ), (p5 : ℝ)⟩
        | _ => .ret a (PointsCheckN pts 6 errmsg)
      else if cmd = "translate".toList then
        match pts with
        | [p0, p1] => .cont (a.Translate (p0 : ℝ) (p1 : ℝ))
        | _ => .ret a (PointsCheckN pts 2 errmsg)
      else if cmd = "translatex".toList then
        match pts with
        | [p0] => .cont (a.Translate (p0 : ℝ) 0)
        | _ => .ret a (PointsCheckN pts 1 errmsg)
      else if cmd = "translatey".toList then
        match pts with
        | [p0] => .cont (a.Translate 0 (p0 : ℝ))
        | _ => .ret a (PointsCheckN pts 1 errmsg)
      else if cmd = "scale".toList then
        -- source bug candidate: for a count other than 1 or 2 the error is
        -- built and logged but NOT returned (no `return err` in this
        -- branch), so the command is skipped and parsing continues
        match pts with
        | [p0] => .cont (a.Scale (p0 : ℝ) (p0 : ℝ))
        | [p0, p1] => .cont (a.Scale (p0 : ℝ) (p1 : ℝ))
        | _ => .cont a
      else if cmd = "scalex".toList then
        match pts with
        | [p0] => .cont (a.Scale (p0 : ℝ) 1)
        | _ => .ret a (PointsCheckN pts 1 errmsg)
      else if cmd = "scaley".toList then
        match pts with
        | [p0] => .cont (a.Scale 1 (p0 : ℝ))
        | _ => .ret a (PointsCheckN pts 1 errmsg)
      else if cmd = "rotate".toList then
        -- the source computes `ang := pts[0] * math32.Pi / 180` before any
        -- length check: an empty argument list is an index-out-of-range
        -- panic; with 2 or ≥4 arguments it returns PointsCheckN's error
        match pts with
        | [] => .pan
        | [p0] => .cont (a.Rotate ((p0 : ℝ) * Real.pi / 180))
        | [p0, p1, p2] =>
          .cont (((a.Translate (p1 : ℝ) (p2 : ℝ)).Rotate
            ((p0 : ℝ) * Real.pi / 180)).Translate (-(p1 : ℝ)) (-(p2 : ℝ)))
        | _ => .ret a (PointsCheckN pts 1 errmsg)
      else if cmd = "skew".toList then
        match pts with
        | [p0, p1] => .cont (a.Skew (p0 : ℝ) (p1 : ℝ))
        | _ => .ret a (PointsCheckN pts 2 errmsg)
      else if cmd = "skewx".toList then
        match pts with
        | [p0] => .cont (a.Skew (p0 : ℝ) 0)
        | _ => .ret a (PointsCheckN pts 1 errmsg)
      else if cmd = "skewy".toList then
        match pts with
        | [p0] => .cont (a.Skew 0 (p0 : ℝ))
        | _ => .ret a (PointsCheckN pts 1 errmsg)
      else
        -- unrecognized command: silently skipped
        .cont a
    match out with
    | .pan => .panic
    | .ret m e => .done m e
    | .cont a2 =>
      if nxt = [] then .done a2 none
      else if containsChar nxt '(' = false then .done a2 none
      else setStringLoop nxt a2
termination_by str.length
decreasing_by
  calc (splitValsNext (str.drop (pidx + 1))).2.length
      ≤ (str.drop (pidx + 1)).length := splitValsNext_snd_len_le _
    _ < str.length := by
        have := indexOfChar_some_lt hpidx
        simp only [List.length_drop]
        omega

/-- `Matrix2D.SetString`: process a standard SVG-style transform string.
The receiver's prior value `a` is dead on arrival: the code assigns
`*a = Identity2D()` before parsing. -/
noncomputable def Matrix2D.SetString (a : Matrix2D) (s : String) : SSResult :=
  let str := toLowerL (trimSpaceL s.toList)
  if str = "none".toList then .done Identity2D none
  else setStringLoop str Identity2D

/-! ### Claim theorems -/

/-- C10: the result of `SetString` never depends on the receiver's prior
value: the code assigns `*a = Identity2D()` before parsing, so any two
initial matrices give identical final values and error results. -/
theorem setString_receiver_independent (m1 m2 : Matrix2D) (s : String) :
    Matrix2D.SetString m1 s = Matrix2D.SetString m2 s := rfl

/-- C2: the transform-list parser applies the rightmost listed command to
the point first: each named constructor prepends
(`M.Translate tx ty = (Translate2D tx ty).Multiply M`), and the matrix
parsed from `"translate(10,20) rotate(90)"` sends `(1,0)` to the point
obtained by first rotating by 90° (in radians) and then translating by
`(10,20)`. -/
theorem setString_rightmost_first :
    (∀ (M : Matrix2D) (tx ty : ℝ), M.Translate tx ty = (Translate2D tx ty).Multiply M) ∧
    ∃ M : Matrix2D,
      Matrix2D.SetString Identity2D "translate(10,20) rotate(90)" =
        SSResult.done M none ∧
      M.TransformPoint 1 0 =
        (Translate2D 10 20).TransformPoint
          ((Rotate2D (90 * Real.pi / 180)).TransformPoint 1 0).1
          ((Rotate2D (90 * Real.pi / 180)).TransformPoint 1 0).2 := by
  constructor
  · intro M tx ty
    rfl
  · refine ⟨(Rotate2D (90 * Real.pi / 180)).Multiply (Translate2D 10 20), ?_, ?_⟩
    · rw [Matrix2D.SetString]
      simp +decide [setStringLoop, splitValsNext, toLowerL, trimSpaceL, sliceL,
        indexOfChar, containsChar, ReadPoints, readPointsGo, parseFloatQ,
        isNumberChar, digitsVal, PointsCheckN, setStringErrmsg,
        Matrix2D.Translate, Matrix2D.Rotate, Matrix2D.Multiply, Translate2D,
        Rotate2D, Identity2D]
    · simp only [Matrix2D.Multiply, Matrix2D.TransformPoint, Translate2D,
        Rotate2D, Prod.mk.injEq]
      constructor <;> ring

/-- C3 (code evaluated at the failing input): for `"scale(1,2,3)"` the
scale branch only logs the count-mismatch error without returning it, so
`SetString` returns a nil error and the matrix is left unchanged. -/
theorem setString_scale3_returns_nil :
    Matrix2D.SetString Identity2D "scale(1,2,3)" = SSResult.done Identity2D none := by
  rw [Matrix2D.SetString]
  simp +decide [setStringLoop, splitValsNext, toLowerL, trimSpaceL, sliceL,
    indexOfChar, containsChar, ReadPoints, readPointsGo, parseFloatQ,
    isNumberChar, digitsVal, PointsCheckN, setStringErrmsg]

/-- C4 (code evaluated at the failing input): `"rotate()"` reaches
`pts[0]` on an empty argument list, a runtime panic. -/
theorem setString_rotate_empty_panics :
    Matrix2D.SetString Identity2D "rotate()" = SSResult.panic := by
  rw [Matrix2D.SetString]
  simp +decide [setStringLoop, splitValsNext, toLowerL, trimSpaceL, sliceL,
    indexOfChar, containsChar, ReadPoints, readPointsGo, parseFloatQ,
    isNumberChar, digitsVal, PointsCheckN, setStringErrmsg]

/-- C5 counterexample: `"translate(1,2"` contains an opening `(` with no
matching `)`, yet `SetString` reports no failure: it returns a nil error
(the remaining text is consumed as the command's arguments, which here
are valid). -/
theorem setString_unterminated_nil_error :
    Matrix2D.SetString Identity2D "translate(1,2" =
      SSResult.done (Translate2D 1 2) none := by
  rw [Matrix2D.SetString]
  simp +decide [setStringLoop, splitValsNext, toLowerL, trimSpaceL, sliceL,
    indexOfChar, containsChar, ReadPoints, readPointsGo, parseFloatQ,
    isNumberChar, digitsVal, PointsCheckN, setStringErrmsg,
    Matrix2D.Translate, Matrix2D.Multiply, Translate2D, Identity2D]

/-- C5 amended: on an opening `(` with no matching `)` `SetString` stops
parsing there, consuming the rest of the string as that command's
argument list; the error result is whatever that command produces —
nil when its arguments validate (`"translate(1,2"`), the command's own
count-mismatch error otherwise (`"matrix(1,2"`); a missing `(` (command
name cannot be isolated) is the case that always errors. -/
theorem setString_unterminated_amended :
    Matrix2D.SetString Identity2D "translate(1,2" =
      SSResult.done (Translate2D 1 2) none ∧
    Matrix2D.SetString Identity2D "matrix(1,2" =
      SSResult.done Identity2D
        (some "gi.Matrix2D SetString incorrect number of points: 2 != 6\n") ∧
    Matrix2D.SetString Identity2D "translate 1,2" =
      SSResult.done Identity2D
        (some "gi.Matrix2D SetString: no params for xform: translate 1,2\n") := by
  refine ⟨?_, ?_, ?_⟩ <;>
    (rw [Matrix2D.SetString]
     simp +decide [setStringLoop, splitValsNext, toLowerL, trimSpaceL, sliceL,
       indexOfChar, containsChar, ReadPoints, readPointsGo, parseFloatQ,
       isNumberChar, digitsVal, PointsCheckN, setStringErrmsg,
       Matrix2D.Translate, Matrix2D.Multiply, Translate2D, Identity2D])

/-- C9: when a later command fails after earlier commands parsed
successfully, `SetString` returns the error and the receiver equals the
composition of the earlier commands (here `Translate2D 1 2`), not a
reset value; this holds for any prior receiver value. -/
theorem setString_keeps_earlier_commands_on_error (m : Matrix2D) :
    Matrix2D.SetString m "translate(1,2) matrix(1,2)" =
      SSResult.done (Translate2D 1 2)
        (some "gi.Matrix2D SetString incorrect number of points: 2 != 6\n") := by
  rw [Matrix2D.SetString]
  simp +decide [setStringLoop, splitValsNext, toLowerL, trimSpaceL, sliceL,
    indexOfChar, containsChar, ReadPoints, readPointsGo, parseFloatQ,
    isNumberChar, digitsVal, PointsCheckN, setStringErrmsg,
    Matrix2D.Translate, Matrix2D.Multiply, Translate2D, Identity2D]

/-- C6 counterexample: the scanner recognizes only a lowercase `'e'`
exponent marker, so `ReadPoints "1e-5 2E3"` is not `[1e-5, 2000]` (it
actually yields `[1e-5, 2, 3]`: the uppercase `'E'` terminates the
token). -/
theorem readPoints_uppercase_E_cex :
    ReadPoints "1e-5 2E3".toList ≠ [1 / 100000, 2000] := by
  have h : ReadPoints "1e-5 2E3".toList = [Rat.divInt 1 100000, 2, 3] := by decide
  intro heq
  have hlen := congrArg List.length (h ▸ heq)
  simp at hlen

/-- C6 amended: the §8 scanner vectors hold with a lowercase exponent
marker (the only form the scanner recognizes; `SetString` lower-cases its
input before scanning): `"1,2,-3" ↦ [1,2,-3]`, `"1-2" ↦ [1,-2]`
(a `-` not following `e` starts a new token), `"1e-5 2e3" ↦ [1e-5, 2000]`
(scientific notation is one token), and `"abc"` yields no values; an
uppercase `'E'` instead splits the token: `"1e-5 2E3" ↦ [1e-5, 2, 3]`. -/
theorem readPoints_scan_vectors :
    ReadPoints "1,2,-3".toList = [1, 2, -3] ∧
    ReadPoints "1-2".toList = [1, -2] ∧
    ReadPoints "1e-5 2e3".toList = [1 / 100000, 2000] ∧
    ReadPoints "abc".toList = [] ∧
    ReadPoints "1e-5 2E3".toList = [1 / 100000, 2, 3] := by
  have hv : (Rat.divInt 1 100000 : ℚ) = 1 / 100000 := by
    rw [Rat.divInt_eq_div]
    norm_num
  refine ⟨by decide, by decide, ?_, by decide, ?_⟩
  · have h : ReadPoints "1e-5 2e3".toList = [Rat.divInt 1 100000, 2000] := by decide
    rw [h, hv]
  · have h : ReadPoints "1e-5 2E3".toList = [Rat.divInt 1 100000, 2, 3] := by decide
    rw [h, hv]

theorem ceil_add_floor_le (p s : ℝ)
    (h : p = ⌊p⌋ ∨ s ≠ ⌊s⌋) : ⌈p⌉ + ⌊s⌋ ≤ ⌊p⌋ + ⌈s⌉ := by
  rcases h with hp | hsi
  · have hpc : ⌈p⌉ = ⌊p⌋ := by
      rw [hp]
      simp
    have := Int.floor_le_ceil s
    omega
  · have h1 : (⌊s⌋ : ℝ) < s := lt_of_le_of_ne (Int.floor_le s) fun hh => hsi hh.symm
    have h2 : ⌊s⌋ < ⌈s⌉ := Int.lt_ceil.mpr h1
    have h3 : ⌈p⌉ ≤ ⌊p⌋ + 1 := Int.ceil_le_floor_add_one p
    omega

/-- C7 counterexample: at position `(1.5,1.5)` and size `(2,2)` the
inward rectangle is `[2,4]×[2,4]` while the outward rectangle is
`[1,3]×[1,3]`, so the outward rectangle does not contain the inward
one. -/
theorem rect_outward_inward_cex :
    (RectFromPosSizeMin ⟨1.5, 1.5⟩ ⟨2, 2⟩).In
      (RectFromPosSizeMax ⟨1.5, 1.5⟩ ⟨2, 2⟩) = false := by
  have hf : ⌊(1.5 : ℝ)⌋ = 1 := by
    rw [Int.floor_eq_iff]
    norm_num
  have hc : ⌈(1.5 : ℝ)⌉ = 2 := by
    rw [Int.ceil_eq_iff]
    norm_num
  have h2f : ⌊(2 : ℝ)⌋ = 2 := by
    rw [Int.floor_eq_iff]
    norm_num
  have h2c : ⌈(2 : ℝ)⌉ = 2 := by
    rw [Int.ceil_eq_iff]
    norm_num
  simp +decide [RectFromPosSizeMin, RectFromPosSizeMax, Vec2D.ToPointFloor,
    Vec2D.ToPointCeil, imageRect, GoRect.In, GoRect.Empty, hf, hc, h2f, h2c]

/-- C7 amended: the outward rectangle contains the inward one for every
nonnegative size, provided in each coordinate the position is an integer
or the size is not an integer (as in the claim's instance
pos=(1.2,1.8), sz=(3.3,2.1)); without that proviso it fails, e.g. at
pos=(1.5,1.5), sz=(2,2). -/
theorem rect_outward_contains_inward (pos sz : Vec2D)
    (hx : 0 ≤ sz.X) (hy : 0 ≤ sz.Y)
    (hfx : pos.X = ⌊pos.X⌋ ∨ sz.X ≠ ⌊sz.X⌋)
    (hfy : pos.Y = ⌊pos.Y⌋ ∨ sz.Y ≠ ⌊sz.Y⌋) :
    (RectFromPosSizeMin pos sz).In (RectFromPosSizeMax pos sz) = true := by
  have hcx : (0 : ℤ) ≤ ⌈sz.X⌉ := Int.ceil_nonneg hx
  have hcy : (0 : ℤ) ≤ ⌈sz.Y⌉ := Int.ceil_nonneg hy
  have hgx : (0 : ℤ) ≤ ⌊sz.X⌋ := Int.floor_nonneg.mpr hx
  have hgy : (0 : ℤ) ≤ ⌊sz.Y⌋ := Int.floor_nonneg.mpr hy
  have keyx := ceil_add_floor_le pos.X sz.X hfx
  have keyy := ceil_add_floor_le pos.Y sz.Y hfy
  have hflx := Int.floor_le_ceil pos.X
  have hfly := Int.floor_le_ceil pos.Y
  have nMaxX : ¬ (⌊pos.X⌋ + ⌈sz.X⌉ < ⌊pos.X⌋) := by omega
  have nMaxY : ¬ (⌊pos.Y⌋ + ⌈sz.Y⌉ < ⌊pos.Y⌋) := by omega
  have nMinX : ¬ (⌈pos.X⌉ + ⌊sz.X⌋ < ⌈pos.X⌉) := by omega
  have nMinY : ¬ (⌈pos.Y⌉ + ⌊sz.Y⌋ < ⌈pos.Y⌉) := by omega
  simp only [RectFromPosSizeMin, RectFromPosSizeMax, Vec2D.ToPointFloor,
    Vec2D.ToPointCeil, imageRect, GoRect.In, GoRect.Empty,
    if_neg nMaxX, if_neg nMaxY, if_neg nMinX, if_neg nMinY]
  split
  · rfl
  · simp only [decide_eq_true_eq]
    omega

/-- C7 witness: the claim's concrete instance — outward rectangle
origin (1,1), extent (4,3) (i.e. corners (1,1)–(5,4)); inward rectangle
origin (2,2), extent (3,2) (corners (2,2)–(5,4)); containment holds,
by the amended theorem. -/
theorem rect_outward_contains_inward_witness :
    RectFromPosSizeMax ⟨1.2, 1.8⟩ ⟨3.3, 2.1⟩ = ⟨⟨1, 1⟩, ⟨5, 4⟩⟩ ∧
    RectFromPosSizeMin ⟨1.2, 1.8⟩ ⟨3.3, 2.1⟩ = ⟨⟨2, 2⟩, ⟨5, 4⟩⟩ ∧
    (RectFromPosSizeMin ⟨1.2, 1.8⟩ ⟨3.3, 2.1⟩).In
      (RectFromPosSizeMax ⟨1.2, 1.8⟩ ⟨3.3, 2.1⟩) = true := by
  have f12 : ⌊(1.2 : ℝ)⌋ = 1 := by
    rw [Int.floor_eq_iff]
    norm_num
  have f18 : ⌊(1.8 : ℝ)⌋ = 1 := by
    rw [Int.floor_eq_iff]
    norm_num
  have c12 : ⌈(1.2 : ℝ)⌉ = 2 := by
    rw [Int.ceil_eq_iff]
    norm_num
  have c18 : ⌈(1.8 : ℝ)⌉ = 2 := by
    rw [Int.ceil_eq_iff]
    norm_num
  have f33 : ⌊(3.3 : ℝ)⌋ = 3 := by
    rw [Int.floor_eq_iff]
    norm_num
  have f21 : ⌊(2.1 : ℝ)⌋ = 2 := by
    rw [Int.floor_eq_iff]
    norm_num
  have c33 : ⌈(3.3 : ℝ)⌉ = 4 := by
    rw [Int.ceil_eq_iff]
    norm_num
  have c21 : ⌈(2.1 : ℝ)⌉ = 3 := by
    rw [Int.ceil_eq_iff]
    norm_num
  refine ⟨?_, ?_, ?_⟩
  · simp +decide [RectFromPosSizeMax, Vec2D.ToPointFloor, Vec2D.ToPointCeil,
      imageRect, f12, f18, c33, c21]
  · simp +decide [RectFromPosSizeMin, Vec2D.ToPointFloor, Vec2D.ToPointCeil,
      imageRect, c12, c18, f33, f21]
  · exact rect_outward_contains_inward ⟨1.2, 1.8⟩ ⟨3.3, 2.1⟩ (by norm_num)
      (by norm_num)
      (Or.inr (show (3.3 : ℝ) ≠ (⌊(3.3 : ℝ)⌋ : ℤ) by
        rw [f33]
        norm_num))
      (Or.inr (show (2.1 : ℝ) ≠ (⌊(2.1 : ℝ)⌋ : ℤ) by
        rw [f21]
        norm_num))

/-- C8 counterexample: for `M = Translate2D(0,0).Rotate(π/4).Scale(2,1)`
(the claim's construction order, with `sx = 2 ≠ 1 = sy`), `ExtractRot M`
is not `π/4`, not even modulo `2π`: the extracted angle is
`atan2(sin(π/4), 2·cos(π/4)) ≠ π/4`. -/
theorem extract_rot_scale_order_cex :
    ¬ ∃ k : ℤ, (((Translate2D 0 0).Rotate (Real.pi / 4)).Scale 2 1).ExtractRot =
        Real.pi / 4 + k * (2 * Real.pi) := by
  rintro ⟨k, hk⟩
  have hc : 0 < Real.cos (Real.pi / 4) := by
    refine Real.cos_pos_of_mem_Ioo ⟨?_, ?_⟩
    · have := Real.pi_pos
      linarith
    · have := Real.pi_pos
      linarith
  have hs : 0 < Real.sin (Real.pi / 4) := by
    refine Real.sin_pos_of_pos_of_lt_pi ?_ ?_
    · have := Real.pi_pos
      linarith
    · have := Real.pi_pos
      linarith
  have hM : (((Translate2D 0 0).Rotate (Real.pi / 4)).Scale 2 1).ExtractRot =
      Complex.arg ⟨2 * Real.cos (Real.pi / 4), Real.sin (Real.pi / 4)⟩ := by
    simp only [Matrix2D.Scale, Matrix2D.Rotate, Matrix2D.Multiply, Translate2D,
      Scale2D, Rotate2D, Matrix2D.ExtractRot, atan2]
    norm_num
  set z : ℂ := ⟨2 * Real.cos (Real.pi / 4), Real.sin (Real.pi / 4)⟩ with hzdef
  have hzre : z.re = 2 * Real.cos (Real.pi / 4) := rfl
  have hzim : z.im = Real.sin (Real.pi / 4) := rfl
  have hz : z ≠ 0 := by
    intro h0
    have : z.re = 0 := by rw [h0]; rfl
    rw [hzre] at this
    linarith
  have habs : 0 < Complex.abs z := Complex.abs.pos hz
  have h1 : Real.cos (Complex.arg z) = z.re / Complex.abs z := Complex.cos_arg hz
  have h2 : Real.sin (Complex.arg z) = z.im / Complex.abs z := Complex.sin_arg z
  rw [hM] at hk
  rw [hk, Real.cos_add_int_mul_two_pi] at h1
  rw [hk, Real.sin_add_int_mul_two_pi] at h2
  rw [hzim, eq_div_iff habs.ne'] at h2
  have hA : Complex.abs z = 1 :=
    mul_left_cancel₀ hs.ne' (by rw [mul_one]; linarith [h2])
  rw [hzre, hA] at h1
  norm_num at h1

/-- C8 amended: for a shear-free matrix built in the order
`M = Translate2D(tx,ty).Scale(sx,sy).Rotate(θ)` (scale applied before the
rotation — the convention `ExtractRot`'s decomposition inverts), with
`sx, sy > 0` and `θ` in atan2's principal range `(-π, π]`, `ExtractRot`
reproduces `θ` exactly and `ExtractScale` reproduces `(sx, sy)` exactly;
with the claim's order `Translate.Rotate(θ).Scale(sx,sy)` this fails
whenever `sx ≠ sy` and `θ` is not a multiple of `π/2`. -/
theorem extract_decomposition (tx ty θ sx sy : ℝ) (hsx : 0 < sx) (hsy : 0 < sy)
    (hθ : θ ∈ Set.Ioc (-Real.pi) Real.pi) :
    (((Translate2D tx ty).Scale sx sy).Rotate θ).ExtractRot = θ ∧
    (((Translate2D tx ty).Scale sx sy).Rotate θ).ExtractScale = (sx, sy) := by
  have hrot : (((Translate2D tx ty).Scale sx sy).Rotate θ).ExtractRot = θ := by
    have hmk : (⟨(((Translate2D tx ty).Scale sx sy).Rotate θ).XX,
        -(((Translate2D tx ty).Scale sx sy).Rotate θ).XY⟩ : ℂ) =
        (sx : ℂ) * (Real.cos θ + Real.sin θ * Complex.I) := by
      apply Complex.ext
      · simp only [Matrix2D.Rotate, Matrix2D.Scale, Matrix2D.Multiply,
          Rotate2D, Scale2D, Translate2D, Complex.mul_re, Complex.add_re,
          Complex.ofReal_re, Complex.mul_im, Complex.add_im, Complex.ofReal_im,
          Complex.I_re, Complex.I_im]
        ring
      · simp only [Matrix2D.Rotate, Matrix2D.Scale, Matrix2D.Multiply,
          Rotate2D, Scale2D, Translate2D, Complex.mul_re, Complex.add_re,
          Complex.ofReal_re, Complex.mul_im, Complex.add_im, Complex.ofReal_im,
          Complex.I_re, Complex.I_im]
        ring
    rw [Matrix2D.ExtractRot, atan2, hmk, Complex.arg_real_mul _ hsx,
      Complex.ofReal_cos, Complex.ofReal_sin,
      Complex.arg_cos_add_sin_mul_I hθ]
  refine ⟨hrot, ?_⟩
  simp only [Matrix2D.ExtractScale]
  rw [hrot]
  simp only [Matrix2D.Rotate, Matrix2D.Scale, Matrix2D.Multiply, Rotate2D,
    Scale2D, Translate2D, Matrix2D.TransformVector, Real.cos_neg, Real.sin_neg,
    Prod.mk.injEq]
  constructor
  · linear_combination sx * (Real.sin_sq_add_cos_sq θ)
  · linear_combination sy * (Real.sin_sq_add_cos_sq θ)

/-- C8 witness: the amended decomposition at tx=ty=0, θ=0, sx=sy=1. -/
theorem extract_decomposition_witness :
    (0 : ℝ) < 1 ∧ (0 : ℝ) ∈ Set.Ioc (-Real.pi) Real.pi ∧
    (((Translate2D 0 0).Scale 1 1).Rotate 0).ExtractRot = 0 ∧
    (((Translate2D 0 0).Scale 1 1).Rotate 0).ExtractScale = (1, 1) := by
  have hmem : (0 : ℝ) ∈ Set.Ioc (-Real.pi) Real.pi :=
    Set.mem_Ioc.mpr ⟨neg_lt_zero.mpr Real.pi_pos, Real.pi_pos.le⟩
  exact ⟨one_pos, hmem,
    (extract_decomposition 0 0 0 1 1 one_pos one_pos hmem).1,
    (extract_decomposition 0 0 0 1 1 one_pos one_pos hmem).2⟩
